import Mathlib

/-!
Shallow embedding of the HomeBrew 3-in-1 USB diagnostic utilities
(`diagnose_homebrew.py`, `scan_celestron.py`,
`python_scripts/telescope_comm.py`, `python_scripts/wifi_bt_gps_test.py`).

The device sitting behind a transport is modelled as a `Behavior`: for a
given command text, either the write raises, the read raises, or the read
yields raw data. What a silent device (no data made available within the
post-write delay) turns into depends on the transport: a `socket.recv` or
telnet `read_some` blocks and then raises a timeout, while a serial
`readline` bounded by its timeout returns the empty byte string; the
translations `socketOutcome` and `serialOutcome` below map a device-level
turn to the per-transport `SendOutcome`.
-/

/-- Outcome of one write/sleep/read exchange on an open transport, as seen
by the `send_command` call sites: the write may raise, the read may raise,
or the read yields the raw data it obtained. The payload of the error
constructors is the exception's message text. -/
inductive SendOutcome where
  | writeError (msg : String)
  | readError (msg : String)
  | recv (data : String)
deriving DecidableEq, Repr

/-- A device/transport behavior: what one exchange does for each command. -/
def Behavior : Type := String → SendOutcome

/-- One command exchange at the device level, before the transport's read
semantics are applied: the write may raise, or the device makes
`some data` available within the post-write delay, or stays silent
(`none`). -/
inductive DeviceTurn where
  | writeError (msg : String)
  | avail (data : Option String)
deriving DecidableEq, Repr

/-- Read semantics of the TCP transports: `socket.recv` on the WiFi
tester's socket (timeout 5, wifi_bt_gps_test.py line 29) and telnetlib's
`read_some` on the mount's telnet connection both block when no data is
available and then raise `socket.timeout` (message text "timed out");
an empty `recv` result would mean peer EOF, not silence. -/
def socketOutcome : DeviceTurn → SendOutcome
  | DeviceTurn.writeError e => SendOutcome.writeError e
  | DeviceTurn.avail (some d) => SendOutcome.recv d
  | DeviceTurn.avail none => SendOutcome.readError "timed out"

/-- Read semantics of the serial transport: `readline` on a port opened
with a timeout (telescope_comm.py line 51) returns the empty byte string
when the device stays silent until the timeout. -/
def serialOutcome : DeviceTurn → SendOutcome
  | DeviceTurn.writeError e => SendOutcome.writeError e
  | DeviceTurn.avail (some d) => SendOutcome.recv d
  | DeviceTurn.avail none => SendOutcome.recv ""

/-- The ASCII whitespace characters Python's `str.strip()` removes (the
file-separator range `\x1c`-`\x1f` included); the non-ASCII whitespace
`str.strip()` would also remove (`\x85` and the Unicode spaces) does not
occur in the ASCII-decoded device protocol. -/
def isStripWs (c : Char) : Bool :=
  c = ' ' || c = '\t' || c = '\n' || c = '\r' || c = '\x0b' || c = '\x0c' ||
    c = '\x1c' || c = '\x1d' || c = '\x1e' || c = '\x1f'

/-- Python `str.strip()`: drop leading and trailing whitespace. -/
def pyStrip (s : String) : String :=
  String.mk (((s.data.dropWhile isStripWs).reverse.dropWhile isStripWs).reverse)

namespace WiFiBTGPSTester

/-- Function `WiFiBTGPSTester.send_command` (wifi_bt_gps_test.py lines 37-45):
writes `command + "\r\n"`, sleeps, reads once, decodes and strips; any
exception `e` is caught and the string `f"Error: {e}"` is returned. -/
def send_command (b : Behavior) (command : String) : String :=
  match b command with
  | SendOutcome.writeError e => "Error: " ++ e
  | SendOutcome.readError e => "Error: " ++ e
  | SendOutcome.recv data => pyStrip data

/-- Function `test_wifi_module` (lines 47-77): five named commands, in table order. -/
def test_wifi_module (send : String → String) : List (String × String) :=
  [("wifi_status", send "WIFISTATUS"),
   ("wifi_scan", send "WIFISCAN"),
   ("wifi_connect", send "WIFICONNECT"),
   ("internet_ping", send "PING 8.8.8.8"),
   ("local_ping", send "PING 192.168.1.1")]

/-- Function `test_bluetooth_module` (lines 79-99). -/
def test_bluetooth_module (send : String → String) : List (String × String) :=
  [("bt_status", send "BTSTATUS"),
   ("bt_scan", send "BTSCAN"),
   ("bt_pair", send "BTPAIR")]

/-- Function `test_gps_module` (lines 101-126). -/
def test_gps_module (send : String → String) : List (String × String) :=
  [("gps_status", send "GPSSTATUS"),
   ("gps_coordinates", send "GPSCOORDS"),
   ("gps_satellites", send "GPSSAT"),
   ("gps_time", send "GPSTIME")]

/-- Function `test_usb_relay` (lines 128-149). -/
def test_usb_relay (send : String → String) : List (String × String) :=
  [("usb_status", send "USBSTATUS"),
   ("usb_relay_on", send "USBRELAY ON"),
   ("usb_relay_off", send "USBRELAY OFF")]

/-- Function `test_device_info` (lines 151-176). -/
def test_device_info (send : String → String) : List (String × String) :=
  [("device_version", send "VERSION"),
   ("device_uptime", send "UPTIME"),
   ("device_temperature", send "TEMPERATURE"),
   ("memory_status", send "MEMORY")]

end WiFiBTGPSTester

/-- A value of the test-result mapping: either a subsystem's own
name-to-response mapping, or a plain string (duration / timestamp). -/
inductive Entry where
  | sub (m : List (String × String))
  | strv (s : String)
deriving DecidableEq, Repr

/-- The Test Result Set: insertion-ordered mapping from test-category name
to its entry, as built by `run_all_tests`. -/
abbrev ResultSet : Type := List (String × Entry)

namespace WiFiBTGPSTester

/-- Function `run_all_tests` (lines 178-202): `None` when the connect fails,
otherwise the five subsystem mappings in order, then `test_duration` and
`test_timestamp`. The wall-clock strings are parameters since they come
from `datetime.now()`. -/
def run_all_tests (connectOk : Bool) (b : Behavior) (dur ts : String) :
    Option ResultSet :=
  if connectOk then
    some [("wifi_tests", Entry.sub (test_wifi_module (send_command b))),
          ("bluetooth_tests", Entry.sub (test_bluetooth_module (send_command b))),
          ("gps_tests", Entry.sub (test_gps_module (send_command b))),
          ("usb_tests", Entry.sub (test_usb_relay (send_command b))),
          ("device_tests", Entry.sub (test_device_info (send_command b))),
          ("test_duration", Entry.strv dur),
          ("test_timestamp", Entry.strv ts)]
  else none

end WiFiBTGPSTester

namespace CelestronMount

/-- Function `CelestronMount.send_command` (telescope_comm.py lines 62-82): returns
`None` when not connected; otherwise writes, sleeps, reads once (telnet
`read_some` or serial `readline`), decodes and strips; any exception is
caught, printed, and `None` is returned. -/
def send_command (connected : Bool) (b : Behavior) (command : String) :
    Option String :=
  if connected then
    match b command with
    | SendOutcome.writeError _ => none
    | SendOutcome.readError _ => none
    | SendOutcome.recv data => some (pyStrip data)
  else none

/-- The fixed command table of `get_mount_info` (lines 86-91). -/
def mountCommands : List String := ["MS", "GV", "GA", "GZ"]

/-- Function `get_mount_info` (lines 84-100): issues the four commands in order and
records `cmd -> response` only when the response is truthy (not `None`
and not the empty string). -/
def get_mount_info (connected : Bool) (b : Behavior) : List (String × String) :=
  mountCommands.foldl
    (fun acc cmd =>
      match send_command connected b cmd with
      | some response => if response ≠ "" then acc ++ [(cmd, response)] else acc
      | none => acc)
    []

end CelestronMount

/-- Extract the key list of an entry (empty for a plain string value). -/
def Entry.subKeys : Entry → List String
  | Entry.sub m => m.map Prod.fst
  | Entry.strv _ => []

/-- Outcome of one TCP connect attempt as seen by `scan_port`
(scan_celestron.py lines 6-15): `connect_ex` returned a code (`0` means
the connect succeeded), or an exception was raised somewhere in the
socket setup / connect. -/
inductive ConnectOutcome where
  | code (n : Nat)
  | exn (msg : String)
deriving DecidableEq, Repr

/-- Function `scan_port` (scan_celestron.py lines 6-15): `return result == 0`
inside `try`; the bare `except` returns `False`. -/
def scan_port : ConnectOutcome → Bool
  | ConnectOutcome.code n => n == 0
  | ConnectOutcome.exn _ => false

/-- The address string built for suffix `i` (scan_celestron.py line 22). -/
def mkIp (i : Nat) : String := "192.168.68." ++ toString i

/-- One iteration of the module-level sweep loop (scan_celestron.py lines
21-27): records the probed suffix and, when `scan_port` succeeds for it,
appends the address to `found`. The probe oracle stands for the network:
which suffixes' connect attempts succeed. -/
def sweepStep (ok : Nat → Bool) (acc : List Nat × List String) (i : Nat) :
    List Nat × List String :=
  (acc.1 ++ [i], if ok i then acc.2 ++ [mkIp i] else acc.2)

/-- The module-level sweep loop `for i in range(1, 255)` of
scan_celestron.py: returns (suffixes probed, `found` list). -/
def sweep (ok : Nat → Bool) : List Nat × List String :=
  (List.range' 1 254).foldl (sweepStep ok) ([], [])

/-- A serial-port descriptor as used by diagnose_homebrew.py: the fields
of `serial.tools.list_ports` entries that the script reads. -/
structure PortInfo where
  device : String
  description : String
  hwid : String
  manufacturer : String
deriving DecidableEq, Repr

/-- Whether `needle` occurs at the start of `hay` (character lists). -/
def charsStartWith : List Char → List Char → Bool
  | _, [] => true
  | [], _ :: _ => false
  | a :: as, b :: bs => a == b && charsStartWith as bs

/-- Whether `needle` occurs somewhere inside `hay` (character lists). -/
def charsContain : List Char → List Char → Bool
  | [], needle => charsStartWith [] needle
  | a :: as, needle => charsStartWith (a :: as) needle || charsContain as needle

/-- Python's substring test `needle in hay` on text. -/
def strContains (hay needle : String) : Bool :=
  charsContain hay.data needle.data

/-- Python `str.lower()`, per character (the keyword table and hardware
ids are ASCII, where lowercasing is the A-Z shift). -/
def strLower (s : String) : String :=
  String.mk (s.data.map Char.toLower)

/-- The keyword table of `detect_homebrew_port` (diagnose_homebrew.py
line 34). -/
def keywords : List String := ["CH340", "CP210", "FTDI", "USB-SERIAL", "ESP32", "Arduino"]

/-- The per-port, per-keyword test of `detect_homebrew_port` (line 38):
`keyword.lower() in port.description.lower() or keyword.lower() in
str(port.hwid).lower()`. -/
def keywordTest (p : PortInfo) (k : String) : Bool :=
  strContains (strLower p.description) (strLower k) ||
    strContains (strLower p.hwid) (strLower k)

/-- Whether any keyword of `kws` matches the descriptor `p`. -/
def keywordHit (kws : List String) (p : PortInfo) : Bool :=
  kws.any (keywordTest p)

/-- The nested loops of `detect_homebrew_port` (lines 36-40), generalized
over the keyword table: for each port in enumeration order, for each
keyword in table order, return `port.device` on the first match. -/
def detectWith (kws : List String) (ports : List PortInfo) : Option String :=
  ports.findSome? (fun p =>
    kws.findSome? (fun k => if keywordTest p k then some p.device else none))

/-- Function `detect_homebrew_port` (diagnose_homebrew.py lines 29-43): the nested
loops over `ports` and the fixed keyword table; `None` when nothing
matches. -/
def detect_homebrew_port (ports : List PortInfo) : Option String :=
  detectWith keywords ports

/-!
JSON serialization of the Test Result Set, as produced by `save_results`
(wifi_bt_gps_test.py lines 204-213, `json.dump(self.test_results, f,
indent=2)` with the CPython defaults `ensure_ascii=True`, separators
`(",", ": ")`), and a parser for the value fragment that the result set
inhabits (objects of depth at most two with string leaves), following
`json.load`'s grammar: the same escape forms, optional whitespace between
tokens, surrogate-pair recombination for `\uXXXX` escapes.
-/

/-- Lowercase hex digit, as produced by CPython's `'\u{0:04x}'.format`. -/
def hexDigitChar (n : Nat) : Char :=
  if n < 10 then Char.ofNat (48 + n) else Char.ofNat (87 + n)

/-- Four lowercase hex digits of `n < 0x10000`, most significant first. -/
def toHex4 (n : Nat) : List Char :=
  [hexDigitChar (n / 4096 % 16), hexDigitChar (n / 256 % 16),
   hexDigitChar (n / 16 % 16), hexDigitChar (n % 16)]

/-- CPython `json.encoder` ASCII escaping of one character: `\` and `"`
get short escapes; printable ASCII (0x20-0x7e) stays as is; the five
control characters of `ESCAPE_DCT` get short escapes; every other
character becomes `\uXXXX`, with a surrogate pair for the astral plane.
CPython builds the pair with shifts and masks; for `n - 0x10000 <
0x100000` those equal the `/ 0x400` and `% 0x400` used here. -/
def escChar (c : Char) : List Char :=
  if c = '\\' then ['\\', '\\']
  else if c = '"' then ['\\', '"']
  else if 0x20 ≤ c.toNat ∧ c.toNat ≤ 0x7e then [c]
  else if c = '\x08' then ['\\', 'b']
  else if c = '\x0c' then ['\\', 'f']
  else if c = '\n' then ['\\', 'n']
  else if c = '\r' then ['\\', 'r']
  else if c = '\t' then ['\\', 't']
  else if c.toNat < 0x10000 then '\\' :: 'u' :: toHex4 c.toNat
  else ('\\' :: 'u' :: toHex4 (0xd800 + (c.toNat - 0x10000) / 0x400)) ++
       ('\\' :: 'u' :: toHex4 (0xdc00 + (c.toNat - 0x10000) % 0x400))

/-- A JSON string literal: quote, escaped characters, quote. -/
def printStr (s : String) : List Char :=
  '"' :: (s.data.flatMap escChar ++ ['"'])

/-- Newline plus the 2-space indent of nesting level 1. -/
def ind2 : List Char := ['\n', ' ', ' ']

/-- Newline plus the 4-space indent of nesting level 2. -/
def ind4 : List Char := ['\n', ' ', ' ', ' ', ' ']

/-- Python `json.dump(indent=2)` item joining: the newline-plus-indent before the
first item, then `,` plus newline-plus-indent before each later item. -/
def sepBy (ind : List Char) : List (List Char) → List Char
  | [] => []
  | p :: ps => ind ++ (p ++ ps.flatMap (fun q => ',' :: (ind ++ q)))

/-- A subsystem mapping serialized as a level-1 JSON object. -/
def printInner (m : List (String × String)) : List Char :=
  match m with
  | [] => ['{', '}']
  | _ :: _ =>
    '{' :: (sepBy ind4 (m.map (fun kv => printStr kv.1 ++ (':' :: ' ' :: printStr kv.2))) ++
      ('\n' :: ' ' :: ' ' :: '}' :: []))

/-- A top-level value: subsystem object or plain string. -/
def printEntry : Entry → List Char
  | Entry.strv s => printStr s
  | Entry.sub m => printInner m

/-- The full `json.dump(results, f, indent=2)` text as characters. -/
def dumpChars (r : ResultSet) : List Char :=
  match r with
  | [] => ['{', '}']
  | _ :: _ =>
    '{' :: (sepBy ind2 (r.map (fun kv => printStr kv.1 ++ (':' :: ' ' :: printEntry kv.2))) ++
      ('\n' :: '}' :: []))

/-- The serialized result set, as written by `save_results`. -/
def dumps (r : ResultSet) : String := String.mk (dumpChars r)

/-- Function `save_results` (lines 204-213): opens `filename` for writing and dumps
the results as indented JSON. The filesystem is an association list from
filename to contents; writing prepends (overwrites on lookup). -/
def save_results (fs : List (String × String)) (filename : String)
    (r : ResultSet) : List (String × String) :=
  (filename, dumps r) :: fs

/-- Reading a file back from the modelled filesystem. -/
def fsRead (fs : List (String × String)) (filename : String) : Option String :=
  (fs.find? (fun kv => kv.1 == filename)).map Prod.snd

/-- Parser helper: prepend a decoded character to a string-body result. -/
def consFst (c : Char) (p : List Char × List Char) : List Char × List Char :=
  (c :: p.1, p.2)

/-- Value of one hex digit, upper or lower case (json accepts both). -/
def hexVal (c : Char) : Option Nat :=
  if 48 ≤ c.toNat ∧ c.toNat ≤ 57 then some (c.toNat - 48)
  else if 97 ≤ c.toNat ∧ c.toNat ≤ 102 then some (c.toNat - 87)
  else if 65 ≤ c.toNat ∧ c.toNat ≤ 70 then some (c.toNat - 55)
  else none

/-- Value of a 4-digit hex escape. -/
def hex4 (a b c d : Char) : Option Nat :=
  match hexVal a, hexVal b, hexVal c, hexVal d with
  | some x, some y, some z, some w => some (((x * 16 + y) * 16 + z) * 16 + w)
  | _, _, _, _ => none

/-- Recombine a surrogate pair `\uD800+hi`/`\uDC00+lo` into one scalar, as
`json.decoder.py_scanstring` does. -/
def combineSurrogates (n m : Nat) : Char :=
  Char.ofNat (0x10000 + (n - 0xd800) * 0x400 + (m - 0xdc00))

/-- Scan the continuation of a `\u` escape that opened with a high
surrogate `n`: the next token must be a `\uXXXX` low surrogate, and the
pair is recombined as in `json.decoder.py_scanstring`. -/
def scanLow (n : Nat) : List Char → Option (Char × List Char)
  | e2 :: u2 :: a2 :: b2 :: c3 :: d2 :: r3 =>
    if e2 = '\\' ∧ u2 = 'u' then
      (hex4 a2 b2 c3 d2).bind (fun m =>
        if 0xdc00 ≤ m ∧ m ≤ 0xdfff then some (combineSurrogates n m, r3) else none)
    else none
  | _ => none

/-- Scan the four hex digits of a `\uXXXX` escape (input starts after the
`u`): a non-surrogate value is the decoded character; a high surrogate
must be followed by a low-surrogate escape; a lone low surrogate is
rejected (CPython would keep a surrogate code point there, which a Lean
`Char` cannot represent; the serializer never emits one). -/
def scanU : List Char → Option (Char × List Char)
  | a :: b :: c :: d :: r2 =>
    (hex4 a b c d).bind (fun n =>
      if n < 0xd800 ∨ 0xdfff < n then some (Char.ofNat n, r2)
      else if n ≤ 0xdbff then scanLow n r2
      else none)
  | _ => none

/-- Scan one escape (input starts after the backslash): the eight short
escape forms of `json.decoder.BACKSLASH` plus `\uXXXX`. -/
def scanEsc : List Char → Option (Char × List Char)
  | [] => none
  | e :: r =>
    if e = '"' then some ('"', r)
    else if e = '\\' then some ('\\', r)
    else if e = '/' then some ('/', r)
    else if e = 'b' then some ('\x08', r)
    else if e = 'f' then some ('\x0c', r)
    else if e = 'n' then some ('\n', r)
    else if e = 'r' then some ('\r', r)
    else if e = 't' then some ('\t', r)
    else if e = 'u' then scanU r
    else none

/-- Scan one token of a string-literal body: the closing quote (`none`
payload), an escape, or a raw character, which the strict `json.load`
scanner rejects when it is a control character. -/
def scanTok : List Char → Option (Option Char × List Char)
  | [] => none
  | c :: rest =>
    if c = '"' then some (none, rest)
    else if c = '\\' then (scanEsc rest).map (fun p => (some p.1, p.2))
    else if c.toNat < 0x20 then none
    else some (some c, rest)

/-- Body of a JSON string literal after the opening quote, with explicit
fuel (each step consumes at least one character, so the input length is
enough fuel): returns the decoded characters and the input after the
closing quote. -/
def parseStrBodyF : Nat → List Char → Option (List Char × List Char)
  | 0, _ => none
  | fuel + 1, l =>
    match scanTok l with
    | none => none
    | some (none, rest) => some ([], rest)
    | some (some ch, rest) => (parseStrBodyF fuel rest).map (consFst ch)

/-- Body of a JSON string literal after the opening quote. -/
def parseStrBody (l : List Char) : Option (List Char × List Char) :=
  parseStrBodyF l.length l

/-- A JSON string literal including the opening quote. -/
def parseStr : List Char → Option (String × List Char)
  | [] => none
  | c :: rest =>
    if c = '"' then (parseStrBody rest).map (fun p => (String.mk p.1, p.2))
    else none

/-- The four JSON whitespace characters of `json.decoder.WHITESPACE`. -/
def isWsChar (c : Char) : Bool :=
  c = ' ' || c = '\t' || c = '\n' || c = '\r'

/-- Skip leading JSON whitespace. -/
def skipWs : List Char → List Char
  | [] => []
  | c :: rest => if isWsChar c then skipWs rest else c :: rest

/-- One `"key": "value"` member of an inner (subsystem) object. -/
def parseStringItem (l : List Char) : Option ((String × String) × List Char) :=
  match parseStr (skipWs l) with
  | none => none
  | some (k, r1) =>
    match skipWs r1 with
    | ':' :: r2 =>
      match parseStr (skipWs r2) with
      | none => none
      | some (v, r3) => some ((k, v), r3)
    | _ => none

/-- The members of a non-empty inner object, after its opening brace,
with explicit fuel (one unit per member; each member consumes at least
one character, so the input length is enough fuel). -/
def parseItemsF : Nat → List Char → Option (List (String × String) × List Char)
  | 0, _ => none
  | fuel + 1, l =>
    match parseStringItem l with
    | none => none
    | some (kv, r) =>
      match skipWs r with
      | ',' :: r2 => (parseItemsF fuel r2).map (fun p => (kv :: p.1, p.2))
      | '}' :: r2 => some ([kv], r2)
      | _ => none

/-- An inner object after its opening brace: empty, or its member list. -/
def parseInnerBody (l : List Char) : Option (List (String × String) × List Char) :=
  match skipWs l with
  | '}' :: r2 => some ([], r2)
  | _ => parseItemsF (l.length + 1) l

/-- A top-level member value: a string or an inner object. -/
def parseEntry (l : List Char) : Option (Entry × List Char) :=
  match skipWs l with
  | '"' :: r => (parseStrBody r).map (fun p => (Entry.strv (String.mk p.1), p.2))
  | '{' :: r => (parseInnerBody r).map (fun p => (Entry.sub p.1, p.2))
  | _ => none

/-- One `"key": value` member of the top-level object. -/
def parseTopItem (l : List Char) : Option ((String × Entry) × List Char) :=
  match parseStr (skipWs l) with
  | none => none
  | some (k, r1) =>
    match skipWs r1 with
    | ':' :: r2 =>
      match parseEntry r2 with
      | none => none
      | some (v, r3) => some ((k, v), r3)
    | _ => none

/-- The members of a non-empty top-level object, after its opening brace,
with explicit fuel. -/
def parseTopItemsF : Nat → List Char → Option (ResultSet × List Char)
  | 0, _ => none
  | fuel + 1, l =>
    match parseTopItem l with
    | none => none
    | some (kv, r) =>
      match skipWs r with
      | ',' :: r2 => (parseTopItemsF fuel r2).map (fun p => (kv :: p.1, p.2))
      | '}' :: r2 => some ([kv], r2)
      | _ => none

/-- Parse a serialized Test Result Set back from text, following
`json.load`: optional surrounding whitespace, one top-level object whose
values are strings or string-valued objects, and nothing after it. -/
def parseResultSet (s : String) : Option ResultSet :=
  match skipWs s.data with
  | '{' :: r =>
    match
      (match skipWs r with
       | '}' :: r2 => some (([] : ResultSet), r2)
       | _ => parseTopItemsF (r.length + 1) r) with
    | none => none
    | some (rs, rest) => if skipWs rest = [] then some rs else none
  | _ => none

/-!
Helper lemmas: the serializer/parser round trip, component by component.
-/

theorem charValidNat (c : Char) :
    c.toNat < 0xd800 ∨ (0xdfff < c.toNat ∧ c.toNat < 0x110000) := by
  rcases c.valid with h | ⟨h1, h2⟩
  · left
    exact h
  · right
    exact ⟨h1, h2⟩

theorem hexVal_hexDigitChar : ∀ k, k < 16 → hexVal (hexDigitChar k) = some k := by
  decide

theorem hex4_toHex4 (n : Nat) (h : n < 65536) :
    hex4 (hexDigitChar (n / 4096 % 16)) (hexDigitChar (n / 256 % 16))
      (hexDigitChar (n / 16 % 16)) (hexDigitChar (n % 16)) = some n := by
  rw [hex4, hexVal_hexDigitChar _ (by omega), hexVal_hexDigitChar _ (by omega),
    hexVal_hexDigitChar _ (by omega), hexVal_hexDigitChar _ (by omega)]
  simp only [Option.some.injEq]
  omega

theorem scanU_toHex4 (n : Nat) (t : List Char)
    (hok : n < 0xd800 ∨ 0xdfff < n) (hn : n < 65536) :
    scanU (toHex4 n ++ t) = some (Char.ofNat n, t) := by
  simp only [toHex4, List.cons_append, List.nil_append]
  rw [scanU, hex4_toHex4 n hn, Option.some_bind, if_pos hok]

theorem scanEsc_u (r : List Char) : scanEsc ('u' :: r) = scanU r := rfl

theorem scanTok_escChar (c : Char) (t : List Char) :
    scanTok (escChar c ++ t) = some (some c, t) := by
  have hv := charValidNat c
  unfold escChar
  split_ifs with h1 h2 h3 h4 h5 h6 h7 h8 h9
  · subst h1; rfl
  · subst h2; rfl
  · have hne : ¬ (c.toNat < 0x20) := by omega
    have hq : c ≠ '"' := h2
    have hb : c ≠ '\\' := h1
    simp [scanTok, hq, hb, hne]
  · subst h4; rfl
  · subst h5; rfl
  · subst h6; rfl
  · subst h7; rfl
  · subst h8; rfl
  · -- basic-plane non-printable, non-special: one \uXXXX escape
    have hok : c.toNat < 0xd800 ∨ 0xdfff < c.toNat := by
      rcases hv with h | ⟨ha, hb⟩
      · left; exact h
      · right; exact ha
    simp only [List.cons_append, scanTok, List.append_assoc]
    rw [if_neg (by decide), if_pos trivial]
    rw [scanEsc_u, scanU_toHex4 c.toNat t hok h9, Char.ofNat_toNat]
    rfl
  · -- astral plane: surrogate pair
    rcases hv with h | ⟨ha, hb⟩
    · omega
    simp only [List.cons_append, List.append_assoc, scanTok]
    rw [if_neg (by decide), if_pos trivial, scanEsc_u]
    simp only [toHex4, List.cons_append, List.nil_append]
    rw [scanU, hex4_toHex4 (0xd800 + (c.toNat - 0x10000) / 0x400) (by omega),
      Option.some_bind, if_neg (by omega), if_pos (by omega), scanLow,
      if_pos ⟨rfl, rfl⟩, hex4_toHex4 (0xdc00 + (c.toNat - 0x10000) % 0x400) (by omega),
      Option.some_bind, if_pos (by omega)]
    have harg : combineSurrogates (0xd800 + (c.toNat - 0x10000) / 0x400)
        (0xdc00 + (c.toNat - 0x10000) % 0x400) = c := by
      unfold combineSurrogates
      have heq : 0x10000 + ((0xd800 + (c.toNat - 0x10000) / 0x400) - 0xd800) * 0x400 +
          ((0xdc00 + (c.toNat - 0x10000) % 0x400) - 0xdc00) = c.toNat := by
        omega
      rw [heq, Char.ofNat_toNat]
    rw [harg]
    rfl

theorem scanTok_quote (t : List Char) : scanTok ('"' :: t) = some (none, t) := rfl

theorem parseStrBodyF_escape (l : List Char) :
    ∀ (fuel : Nat) (t : List Char), l.length + 1 ≤ fuel →
      parseStrBodyF fuel (l.flatMap escChar ++ ('"' :: t)) = some (l, t) := by
  induction l with
  | nil =>
    intro fuel t hf
    match fuel with
    | f + 1 =>
      simp only [List.flatMap_nil, List.nil_append, parseStrBodyF, scanTok_quote]
  | cons c cs ih =>
    intro fuel t hf
    match fuel with
    | f + 1 =>
      simp only [List.flatMap_cons, List.append_assoc, parseStrBodyF, scanTok_escChar c]
      rw [ih f t (by simp at hf; omega)]
      rfl

theorem escChar_length_pos (c : Char) : 1 ≤ (escChar c).length := by
  unfold escChar
  split_ifs <;> simp [toHex4]

theorem flatMap_escChar_length (l : List Char) :
    l.length ≤ (l.flatMap escChar).length := by
  induction l with
  | nil => simp
  | cons c cs ih =>
    have := escChar_length_pos c
    simp only [List.flatMap_cons, List.length_append, List.length_cons]
    omega

theorem parseStrBody_escape (l t : List Char) :
    parseStrBody (l.flatMap escChar ++ ('"' :: t)) = some (l, t) := by
  unfold parseStrBody
  apply parseStrBodyF_escape
  have := flatMap_escChar_length l
  simp only [List.length_append, List.length_cons]
  omega

theorem mk_data (s : String) : String.mk s.data = s := rfl

theorem parseStr_printStr (s : String) (t : List Char) :
    parseStr (printStr s ++ t) = some (s, t) := by
  simp only [printStr, List.cons_append, List.append_assoc, List.singleton_append]
  rw [parseStr, if_pos rfl, parseStrBody_escape]
  rfl

theorem skipWs_printStr (s : String) (t : List Char) :
    skipWs (printStr s ++ t) = printStr s ++ t := by
  simp only [printStr, List.cons_append]
  rfl

theorem skipWs_colon (l : List Char) : skipWs (':' :: l) = ':' :: l := rfl

theorem skipWs_space (l : List Char) : skipWs (' ' :: l) = skipWs l := rfl

theorem skipWs_comma (l : List Char) : skipWs (',' :: l) = ',' :: l := rfl

theorem skipWs_closeBrace (l : List Char) : skipWs ('}' :: l) = '}' :: l := rfl

theorem skipWs_openBrace (l : List Char) : skipWs ('{' :: l) = '{' :: l := rfl

theorem skipWs_nlsp2 (l : List Char) :
    skipWs ('\n' :: ' ' :: ' ' :: l) = skipWs l := rfl

theorem skipWs_ind2 (l : List Char) : skipWs (ind2 ++ l) = skipWs l := rfl

theorem skipWs_ind4 (l : List Char) : skipWs (ind4 ++ l) = skipWs l := rfl

theorem parseStringItem_printed (k v : String) (t : List Char) :
    parseStringItem (printStr k ++ (':' :: ' ' :: (printStr v ++ t))) =
      some ((k, v), t) := by
  simp only [parseStringItem, skipWs_printStr, parseStr_printStr, skipWs_colon,
    skipWs_space]

theorem parseStringItem_ind4 (l : List Char) :
    parseStringItem (ind4 ++ l) = parseStringItem l := by
  unfold parseStringItem
  rw [skipWs_ind4]

theorem sepBy_one_append (ind p : List Char) (X : List Char) :
    sepBy ind [p] ++ X = ind ++ (p ++ X) := by
  simp [sepBy, List.append_assoc]

theorem sepBy_head_append (ind p : List Char) (ps : List (List Char)) (X : List Char) :
    sepBy ind (p :: ps) ++ X =
      ind ++ (p ++ (ps.flatMap (fun q => ',' :: (ind ++ q)) ++ X)) := by
  simp [sepBy, List.append_assoc]

theorem sepBy_cons_append (ind p q : List Char) (ps : List (List Char)) (X : List Char) :
    sepBy ind (p :: q :: ps) ++ X =
      ind ++ (p ++ (',' :: (sepBy ind (q :: ps) ++ X))) := by
  simp [sepBy, List.flatMap_cons, List.append_assoc]

theorem parseItemsF_printed (tail : List (String × String)) :
    ∀ (kv : String × String) (fuel : Nat) (t : List Char), tail.length < fuel →
      parseItemsF fuel
        (sepBy ind4
          ((kv :: tail).map (fun kv => printStr kv.1 ++ (':' :: ' ' :: printStr kv.2))) ++
          ('\n' :: ' ' :: ' ' :: '}' :: t)) = some (kv :: tail, t) := by
  induction tail with
  | nil =>
    intro kv fuel t hf
    obtain ⟨k, v⟩ := kv
    match fuel with
    | f + 1 =>
      simp only [List.map_cons, List.map_nil]
      rw [sepBy_one_append]
      simp only [parseItemsF, parseStringItem_ind4, List.append_assoc,
        List.cons_append, parseStringItem_printed, skipWs_nlsp2, skipWs_closeBrace]
  | cons kv2 rest ih =>
    intro kv fuel t hf
    obtain ⟨k, v⟩ := kv
    match fuel with
    | f + 1 =>
      simp only [List.map_cons]
      rw [sepBy_cons_append]
      simp only [parseItemsF, parseStringItem_ind4, List.append_assoc,
        List.cons_append, parseStringItem_printed, skipWs_comma]
      have ihx := ih kv2 f t (by simp at hf; omega)
      simp only [List.map_cons] at ihx
      rw [ihx]
      rfl

theorem flatMapSep_length (ind : List Char) (ps : List (List Char)) :
    ps.length ≤ (ps.flatMap (fun q => ',' :: (ind ++ q))).length := by
  induction ps with
  | nil => simp
  | cons p rest ih =>
    simp only [List.flatMap_cons, List.length_append, List.length_cons]
    omega

theorem sepBy_length (ind : List Char) (ps : List (List Char)) (hind : 1 ≤ ind.length) :
    ps.length ≤ (sepBy ind ps).length := by
  cases ps with
  | nil => simp [sepBy]
  | cons p rest =>
    have := flatMapSep_length ind rest
    simp only [sepBy, List.length_append, List.length_cons]
    omega

theorem parseInnerBody_close (t : List Char) : parseInnerBody ('}' :: t) = some ([], t) := rfl

theorem parseInnerBody_printed (kv : String × String) (m : List (String × String)) (t : List Char) :
    parseInnerBody
      (sepBy ind4
        ((kv :: m).map (fun kv => printStr kv.1 ++ (':' :: ' ' :: printStr kv.2))) ++
        ('\n' :: ' ' :: ' ' :: '}' :: t)) = some (kv :: m, t) := by
  unfold parseInnerBody
  have hlen : m.length <
      ((sepBy ind4
        ((kv :: m).map (fun kv => printStr kv.1 ++ (':' :: ' ' :: printStr kv.2))) ++
        ('\n' :: ' ' :: ' ' :: '}' :: t)).length + 1) := by
    have h1 := sepBy_length ind4
      ((kv :: m).map (fun kv => printStr kv.1 ++ (':' :: ' ' :: printStr kv.2))) (by simp [ind4])
    simp only [List.length_map, List.length_cons] at h1
    simp only [List.length_append]
    omega
  rw [parseItemsF_printed m kv _ t hlen]
  obtain ⟨k, v⟩ := kv
  simp only [List.map_cons]
  rw [sepBy_head_append, skipWs_ind4]
  simp only [List.append_assoc, List.cons_append]
  rw [skipWs_printStr]
  simp only [printStr, List.cons_append]
  rfl

theorem parseEntry_printed (e : Entry) (t : List Char) :
    parseEntry (' ' :: (printEntry e ++ t)) = some (e, t) := by
  cases e with
  | strv s =>
    simp only [printEntry, parseEntry, skipWs_space, skipWs_printStr]
    simp only [printStr, List.cons_append, List.append_assoc, List.singleton_append]
    rw [parseStrBody_escape]
    rfl
  | sub m =>
    cases m with
    | nil =>
      simp only [printEntry, printInner, parseEntry, skipWs_space, List.cons_append]
      rfl
    | cons kv rest =>
      simp only [printEntry, printInner, parseEntry, skipWs_space, List.cons_append,
        List.append_assoc, List.nil_append, skipWs_openBrace]
      rw [parseInnerBody_printed kv rest t]
      rfl

theorem parseTopItem_printed (k : String) (e : Entry) (t : List Char) :
    parseTopItem (printStr k ++ (':' :: ' ' :: (printEntry e ++ t))) =
      some ((k, e), t) := by
  simp only [parseTopItem, skipWs_printStr, parseStr_printStr, skipWs_colon,
    parseEntry_printed]

theorem parseTopItem_ind2 (l : List Char) :
    parseTopItem (ind2 ++ l) = parseTopItem l := by
  unfold parseTopItem
  rw [skipWs_ind2]

theorem parseTopItemsF_printed (tail : ResultSet) :
    ∀ (kv : String × Entry) (fuel : Nat) (t : List Char), tail.length < fuel →
      parseTopItemsF fuel
        (sepBy ind2
          ((kv :: tail).map (fun kv => printStr kv.1 ++ (':' :: ' ' :: printEntry kv.2))) ++
          ('\n' :: '}' :: t)) = some (kv :: tail, t) := by
  induction tail with
  | nil =>
    intro kv fuel t hf
    obtain ⟨k, e⟩ := kv
    match fuel with
    | f + 1 =>
      simp only [List.map_cons, List.map_nil]
      rw [sepBy_one_append]
      simp only [parseTopItemsF, parseTopItem_ind2, List.append_assoc,
        List.cons_append, parseTopItem_printed]
      rfl
  | cons kv2 rest ih =>
    intro kv fuel t hf
    obtain ⟨k, e⟩ := kv
    match fuel with
    | f + 1 =>
      simp only [List.map_cons]
      rw [sepBy_cons_append]
      simp only [parseTopItemsF, parseTopItem_ind2, List.append_assoc,
        List.cons_append, parseTopItem_printed, skipWs_comma]
      have ihx := ih kv2 f t (by simp at hf; omega)
      simp only [List.map_cons] at ihx
      rw [ihx]
      rfl

theorem parseResultSet_dumps (r : ResultSet) : parseResultSet (dumps r) = some r := by
  cases r with
  | nil => rfl
  | cons kv tail =>
    obtain ⟨k, e⟩ := kv
    simp only [dumps, dumpChars, parseResultSet, mk_data, skipWs_openBrace]
    have hlen : tail.length <
        ((sepBy ind2
          (((k, e) :: tail).map (fun kv => printStr kv.1 ++ (':' :: ' ' :: printEntry kv.2))) ++
          ('\n' :: '}' :: [])).length + 1) := by
      have h1 := sepBy_length ind2
        (((k, e) :: tail).map (fun kv => printStr kv.1 ++ (':' :: ' ' :: printEntry kv.2)))
        (by simp [ind2])
      simp only [List.length_map, List.length_cons] at h1
      simp only [List.length_append]
      omega
    rw [parseTopItemsF_printed tail (k, e) _ [] hlen]
    simp only [List.map_cons]
    rw [sepBy_head_append, skipWs_ind2]
    simp only [List.append_assoc, List.cons_append]
    rw [skipWs_printStr]
    simp only [printStr, List.cons_append]
    rfl

/-!
Claim theorems.
-/

/-- C1 counterexample: on the socket-based transports the claim's
scenario — an open session, a successful write, no data available within
the delay — does not yield the empty string: the WiFi tester's `recv`
raises a timeout that `send_command` converts to the error-text response
`"Error: timed out"`, and the mount's telnet `read_some` raises the same
timeout, making its `send_command` return the error value `None`. -/
theorem claim1_counterexample :
    WiFiBTGPSTester.send_command (fun _ => socketOutcome (DeviceTurn.avail none)) "VERSION" =
      "Error: timed out" ∧
    WiFiBTGPSTester.send_command (fun _ => socketOutcome (DeviceTurn.avail none)) "VERSION" ≠
      "" ∧
    CelestronMount.send_command true (fun _ => socketOutcome (DeviceTurn.avail none)) "VERSION" =
      none := by
  refine ⟨rfl, ?_, rfl⟩
  decide

/-- C1 amended: when the write succeeds and the device makes no data
available within the delay, only the serial mount session's send returns
the empty string as a valid non-error response (neither `None` nor an
error text); the socket-based WiFi tester instead returns the error-text
response `"Error: timed out"`, and the telnet mount session returns the
error value `None`. -/
theorem claim1_silence_by_transport (dev : String → DeviceTurn) (cmd : String)
    (h : dev cmd = DeviceTurn.avail none) :
    CelestronMount.send_command true (fun c => serialOutcome (dev c)) cmd = some "" ∧
    CelestronMount.send_command true (fun c => serialOutcome (dev c)) cmd ≠ none ∧
    (∀ msg, CelestronMount.send_command true (fun c => serialOutcome (dev c)) cmd ≠
      some ("Error: " ++ msg)) ∧
    WiFiBTGPSTester.send_command (fun c => socketOutcome (dev c)) cmd =
      "Error: timed out" ∧
    CelestronMount.send_command true (fun c => socketOutcome (dev c)) cmd = none := by
  have hser : (fun c => serialOutcome (dev c)) cmd = SendOutcome.recv "" := by
    show serialOutcome (dev cmd) = SendOutcome.recv ""
    rw [h]
    rfl
  have hsock : (fun c => socketOutcome (dev c)) cmd = SendOutcome.readError "timed out" := by
    show socketOutcome (dev cmd) = SendOutcome.readError "timed out"
    rw [h]
    rfl
  have h1 : CelestronMount.send_command true (fun c => serialOutcome (dev c)) cmd = some "" := by
    unfold CelestronMount.send_command
    rw [if_pos rfl, hser]
    rfl
  refine ⟨h1, ?_, ?_, ?_, ?_⟩
  · rw [h1]
    intro hc
    exact Option.noConfusion hc
  · intro msg heq
    rw [h1] at heq
    have hinj : ("" : String) = "Error: " ++ msg := by
      injection heq
    have hlen := congrArg String.length hinj
    rw [String.length_append] at hlen
    have h7 : ("Error: " : String).length = 7 := rfl
    have h0 : ("" : String).length = 0 := rfl
    omega
  · unfold WiFiBTGPSTester.send_command
    rw [hsock]
    rfl
  · unfold CelestronMount.send_command
    rw [if_pos rfl, hsock]

/-- Witness for C1's amended claim at a concrete silent device. -/
theorem claim1_witness :
    CelestronMount.send_command true (fun _ => serialOutcome (DeviceTurn.avail none))
      "VERSION" = some "" ∧
    WiFiBTGPSTester.send_command (fun _ => socketOutcome (DeviceTurn.avail none))
      "VERSION" = "Error: timed out" := by
  have h := claim1_silence_by_transport (fun _ => DeviceTurn.avail none) "VERSION" rfl
  exact ⟨h.1, h.2.2.2.1⟩

/-- C2: with a transport that replies `"v1.2.3"` to `VERSION` and the
empty string to the other device-info commands, `test_device_info`
produces exactly the expected four-entry mapping, in insertion order. -/
theorem claim2_device_info_mock (b : Behavior)
    (h1 : b "VERSION" = SendOutcome.recv "v1.2.3")
    (h2 : b "UPTIME" = SendOutcome.recv "")
    (h3 : b "TEMPERATURE" = SendOutcome.recv "")
    (h4 : b "MEMORY" = SendOutcome.recv "") :
    WiFiBTGPSTester.test_device_info (WiFiBTGPSTester.send_command b) =
      [("device_version", "v1.2.3"), ("device_uptime", ""),
       ("device_temperature", ""), ("memory_status", "")] := by
  unfold WiFiBTGPSTester.test_device_info WiFiBTGPSTester.send_command
  rw [h1, h2, h3, h4]
  rfl

/-- Witness for C2 at a concrete mock transport. -/
theorem claim2_witness :
    WiFiBTGPSTester.test_device_info (WiFiBTGPSTester.send_command
      (fun c => if c = "VERSION" then SendOutcome.recv "v1.2.3" else SendOutcome.recv "")) =
      [("device_version", "v1.2.3"), ("device_uptime", ""),
       ("device_temperature", ""), ("memory_status", "")] :=
  claim2_device_info_mock _ (by decide) (by decide) (by decide) (by decide)

/-- C8: on the empty port enumeration, `detect_homebrew_port` returns
`None`; being a total Lean function, it raises nothing. -/
theorem claim8_empty_enumeration : detect_homebrew_port [] = none := rfl

/-- C9: the single-host probe is a total boolean function of the connect
outcome: true exactly when `connect_ex` returned 0, false for every
nonzero error code and for every raised exception, and all error outcomes
are indistinguishable in the result. -/
theorem claim9_scan_port_total :
    (∀ o : ConnectOutcome, scan_port o = true ↔ o = ConnectOutcome.code 0) ∧
    (∀ n : Nat, n ≠ 0 → scan_port (ConnectOutcome.code n) = false) ∧
    (∀ msg : String, scan_port (ConnectOutcome.exn msg) = false) ∧
    (∀ o o' : ConnectOutcome, o ≠ ConnectOutcome.code 0 → o' ≠ ConnectOutcome.code 0 →
      scan_port o = scan_port o') := by
  have hfalse : ∀ o : ConnectOutcome, o ≠ ConnectOutcome.code 0 → scan_port o = false := by
    intro o ho
    cases o with
    | code n =>
      have hn : n ≠ 0 := fun hz => ho (by rw [hz])
      simp [scan_port, hn]
    | exn msg => rfl
  refine ⟨?_, ?_, ?_, ?_⟩
  · intro o
    cases o with
    | code n => simp [scan_port]
    | exn msg => simp [scan_port]
  · intro n hn
    exact hfalse _ (fun hc => hn (by injection hc))
  · intro msg
    rfl
  · intro o o' ho ho'
    rw [hfalse o ho, hfalse o' ho']

/-- Witness for C9: a timeout exception and a nonzero error code give the
same result, false. -/
theorem claim9_witness :
    scan_port (ConnectOutcome.exn "timed out") = scan_port (ConnectOutcome.code 111) ∧
    scan_port (ConnectOutcome.code 0) = true :=
  ⟨claim9_scan_port_total.2.2.2 _ _ (by decide) (by decide),
   (claim9_scan_port_total.1 _).mpr rfl⟩

/-- The sweep loop's fold, characterized: it probes every listed suffix
and keeps, in order, the addresses whose probe succeeded. -/
theorem sweep_foldl (ok : Nat → Bool) (l : List Nat) (acc : List Nat × List String) :
    l.foldl (sweepStep ok) acc = (acc.1 ++ l, acc.2 ++ (l.filter ok).map mkIp) := by
  induction l generalizing acc with
  | nil => simp
  | cons i rest ih =>
    rw [List.foldl_cons, ih]
    unfold sweepStep
    cases hok : ok i with
    | true =>
      simp [List.filter_cons, hok, List.append_assoc]
    | false =>
      simp [List.filter_cons, hok, List.append_assoc]

/-- C3: the subnet sweep probes exactly the suffixes 1..254, its `found`
list is the probe-accepting addresses in loop order (hence ascending by
numeric suffix, as the probed suffix list is strictly increasing), and it
is empty when no host accepts. -/
theorem claim3_subnet_sweep (ok : Nat → Bool) :
    (sweep ok).1 = List.range' 1 254 ∧
    (sweep ok).2 = ((List.range' 1 254).filter ok).map mkIp ∧
    List.Pairwise (· < ·) ((List.range' 1 254).filter ok) ∧
    ((∀ i, ok i = false) → (sweep ok).2 = []) := by
  have hs := sweep_foldl ok (List.range' 1 254) ([], [])
  unfold sweep
  rw [hs]
  refine ⟨rfl, rfl, ?_, ?_⟩
  · exact (List.pairwise_lt_range' 1 254).filter ok
  · intro hnone
    have hfil : (List.range' 1 254).filter ok = [] := by
      rw [List.filter_eq_nil_iff]
      intro a _
      simp [hnone a]
    rw [hfil]
    rfl

/-- Witness for C3 at the all-refusing oracle. -/
theorem claim3_witness : (sweep (fun _ => false)).2 = [] :=
  (claim3_subnet_sweep (fun _ => false)).2.2.2 (fun _ => rfl)

/-- C4 counterexample: on the mount session, a read exception is not
recorded as an error-string response: `send_command` yields `None` and
`get_mount_info` records nothing at all for the failed commands. -/
theorem claim4_counterexample :
    CelestronMount.send_command true (fun _ => SendOutcome.readError "read timed out") "MS" =
      none ∧
    CelestronMount.get_mount_info true (fun _ => SendOutcome.readError "read timed out") = [] := by
  constructor
  · rfl
  · rfl

/-- C4 amended: write/read exceptions on an open transport are caught at
the call site and never propagated, and the battery continues with later
commands; the WiFi/BT/GPS tester records `"Error: " ++ message` in place
of the response, while the mount session's `send_command` returns `None`
(so the command is omitted from the mount-info mapping). -/
theorem claim4_exceptions_caught (b : Behavior) (cmd e : String)
    (h : b cmd = SendOutcome.writeError e ∨ b cmd = SendOutcome.readError e) :
    WiFiBTGPSTester.send_command b cmd = "Error: " ++ e ∧
    CelestronMount.send_command true b cmd = none ∧
    (WiFiBTGPSTester.test_device_info (WiFiBTGPSTester.send_command b)).map Prod.fst =
      ["device_version", "device_uptime", "device_temperature", "memory_status"] := by
  refine ⟨?_, ?_, rfl⟩
  · unfold WiFiBTGPSTester.send_command
    rcases h with h | h <;> rw [h]
  · unfold CelestronMount.send_command
    rw [if_pos rfl]
    rcases h with h | h <;> rw [h]

/-- Witness for C4's amended claim at a concrete erroring transport. -/
theorem claim4_witness :
    WiFiBTGPSTester.send_command (fun _ => SendOutcome.writeError "boom") "VERSION" =
      "Error: boom" ∧
    CelestronMount.send_command true (fun _ => SendOutcome.writeError "boom") "MS" = none := by
  have h1 := claim4_exceptions_caught (fun _ => SendOutcome.writeError "boom") "VERSION" "boom"
    (Or.inl rfl)
  have h2 := claim4_exceptions_caught (fun _ => SendOutcome.writeError "boom") "MS" "boom"
    (Or.inl rfl)
  exact ⟨h1.1, h2.2.1⟩

/-- C5: saving the serialized result set and reading the file back yields
exactly the serialized text, and parsing that text recovers a structure
equal to the original result set; in particular every entry, the
timestamp and duration strings included, is reproduced verbatim. -/
theorem claim5_json_roundtrip (fs : List (String × String)) (filename : String)
    (r : ResultSet) :
    fsRead (save_results fs filename r) filename = some (dumps r) ∧
    parseResultSet (dumps r) = some r ∧
    (∀ key, (parseResultSet (dumps r)).map (fun rs => rs.lookup key) =
      some (r.lookup key)) := by
  refine ⟨?_, parseResultSet_dumps r, ?_⟩
  · unfold fsRead save_results
    rw [List.find?_cons_of_pos _ (by simp)]
    rfl
  · intro key
    rw [parseResultSet_dumps r]
    rfl

/-- C6: whenever the connect succeeds, the battery result is present and
carries all five subsystem mappings with their full command tables, plus
the duration and timestamp entries, whatever the transport behavior does
(every command may error). -/
theorem claim6_full_battery (b : Behavior) (dur ts : String) :
    (WiFiBTGPSTester.run_all_tests true b dur ts).map
        (fun rs => rs.map (fun kv => (kv.1, kv.2.subKeys))) =
      some [("wifi_tests", ["wifi_status", "wifi_scan", "wifi_connect",
              "internet_ping", "local_ping"]),
            ("bluetooth_tests", ["bt_status", "bt_scan", "bt_pair"]),
            ("gps_tests", ["gps_status", "gps_coordinates", "gps_satellites", "gps_time"]),
            ("usb_tests", ["usb_status", "usb_relay_on", "usb_relay_off"]),
            ("device_tests", ["device_version", "device_uptime",
              "device_temperature", "memory_status"]),
            ("test_duration", []),
            ("test_timestamp", [])] := rfl

/-- The inner keyword loop of the detector, characterized: it yields the
device path exactly when some keyword matches. -/
theorem findSome?_keyword (p : PortInfo) (kws : List String) :
    kws.findSome? (fun k => if keywordTest p k then some p.device else none) =
      if keywordHit kws p then some p.device else none := by
  induction kws with
  | nil => rfl
  | cons k ks ih =>
    by_cases hk : keywordTest p k = true
    · have hh : keywordHit (k :: ks) p = true := by
        unfold keywordHit
        rw [List.any_cons, hk, Bool.true_or]
      rw [List.findSome?_cons, if_pos hk, hh, if_pos rfl]
    · have hkf : keywordTest p k = false := by
        revert hk
        cases keywordTest p k <;> simp
      have hh : keywordHit (k :: ks) p = keywordHit ks p := by
        unfold keywordHit
        rw [List.any_cons, hkf, Bool.false_or]
      have hstep : (k :: ks).findSome?
          (fun k => if keywordTest p k then some p.device else none) =
          ks.findSome? (fun k => if keywordTest p k then some p.device else none) := by
        rw [List.findSome?_cons, if_neg hk]
      rw [hstep, ih, hh]

/-- The detector's nested loops, characterized: the first port (in
enumeration order) that any keyword matches wins, whatever the keyword
order. -/
theorem detectWith_eq_find (kws : List String) (ports : List PortInfo) :
    detectWith kws ports = (ports.find? (keywordHit kws)).map PortInfo.device := by
  induction ports with
  | nil => rfl
  | cons p rest ih =>
    unfold detectWith
    rw [List.findSome?_cons, findSome?_keyword, List.find?_cons]
    cases hp : keywordHit kws p with
    | true => simp [hp]
    | false =>
      simp only [hp]
      simpa [detectWith] using ih

/-- Keyword matching only reads the keyword list as a set. -/
theorem keywordHit_perm (kws kws' : List String) (h : kws.Perm kws') (p : PortInfo) :
    keywordHit kws p = keywordHit kws' p := by
  unfold keywordHit
  rw [Bool.eq_iff_iff]
  simp only [List.any_eq_true]
  constructor
  · rintro ⟨k, hk, hh⟩
    exact ⟨k, h.mem_iff.mp hk, hh⟩
  · rintro ⟨k, hk, hh⟩
    exact ⟨k, h.mem_iff.mpr hk, hh⟩

/-- C7: the detector matches keywords case-insensitively (only the
lowercased description and hardware id matter), and when several
descriptors match — possibly via different keywords — it returns the
device path of the first matching descriptor in enumeration order,
independent of keyword-list order. -/
theorem claim7_detect_first_match (kws kws' : List String) (ports : List PortInfo)
    (hperm : kws.Perm kws') :
    detectWith kws ports = (ports.find? (keywordHit kws)).map PortInfo.device ∧
    detectWith kws ports = detectWith kws' ports ∧
    (∀ p q : PortInfo, strLower p.description = strLower q.description →
      strLower p.hwid = strLower q.hwid → keywordHit kws p = keywordHit kws q) ∧
    detect_homebrew_port ports = (ports.find? (keywordHit keywords)).map PortInfo.device := by
  refine ⟨detectWith_eq_find kws ports, ?_, ?_, detectWith_eq_find keywords ports⟩
  · rw [detectWith_eq_find, detectWith_eq_find]
    have hhit : keywordHit kws = keywordHit kws' := by
      funext p
      exact keywordHit_perm kws kws' hperm p
    rw [hhit]
  · intro p q hdesc hhwid
    unfold keywordHit keywordTest
    rw [hdesc, hhwid]

/-- Witness for C7: of two matching descriptors — the first matching only
the last keyword, the second matching the first keyword — the first in
enumeration order wins, also with the keyword table reversed. -/
theorem claim7_witness :
    detect_homebrew_port
      [⟨"COM7", "Arduino Uno", "USB VID:PID=2341:0043", "Arduino LLC"⟩,
       ⟨"COM3", "USB-SERIAL CH340", "USB VID:PID=1A86:7523", "wch.cn"⟩] = some "COM7" ∧
    detectWith keywords.reverse
      [⟨"COM7", "Arduino Uno", "USB VID:PID=2341:0043", "Arduino LLC"⟩,
       ⟨"COM3", "USB-SERIAL CH340", "USB VID:PID=1A86:7523", "wch.cn"⟩] = some "COM7" := by
  have h := claim7_detect_first_match keywords keywords.reverse
    [⟨"COM7", "Arduino Uno", "USB VID:PID=2341:0043", "Arduino LLC"⟩,
     ⟨"COM3", "USB-SERIAL CH340", "USB VID:PID=1A86:7523", "wch.cn"⟩]
    (List.reverse_perm keywords).symm
  constructor
  · rw [h.2.2.2]
    decide
  · rw [← h.2.1, h.1]
    decide

/-- Function `get_mount_info`, characterized: the truthiness filter keeps exactly
the commands whose stripped response is a non-empty string. -/
theorem get_mount_info_filterMap (connected : Bool) (b : Behavior) :
    CelestronMount.get_mount_info connected b =
      CelestronMount.mountCommands.filterMap (fun cmd =>
        match CelestronMount.send_command connected b cmd with
        | some response => if response ≠ "" then some (cmd, response) else none
        | none => none) := by
  unfold CelestronMount.get_mount_info
  have hgen : ∀ (l : List String) (acc : List (String × String)),
      l.foldl (fun acc cmd =>
        match CelestronMount.send_command connected b cmd with
        | some response => if response ≠ "" then acc ++ [(cmd, response)] else acc
        | none => acc) acc =
      acc ++ l.filterMap (fun cmd =>
        match CelestronMount.send_command connected b cmd with
        | some response => if response ≠ "" then some (cmd, response) else none
        | none => none) := by
    intro l
    induction l with
    | nil => intro acc; simp
    | cons cmd rest ih =>
      intro acc
      rw [List.foldl_cons, ih, List.filterMap_cons]
      cases hs : CelestronMount.send_command connected b cmd with
      | none => simp
      | some response =>
        by_cases hr : response = ""
        · simp [hr]
        · simp [hr]
  rw [hgen]
  rfl

/-- C10: every value recorded by `get_mount_info` is a non-empty string
and every key is one of the issued commands; a command whose response is
empty (or `None`) is silently omitted, so the mapping can lack keys for
commands that were issued — with an all-silent device it is empty. -/
theorem claim10_mount_info_truthy :
    (∀ (connected : Bool) (b : Behavior) (p : String × String),
      p ∈ CelestronMount.get_mount_info connected b →
        p.2 ≠ "" ∧ p.1 ∈ CelestronMount.mountCommands) ∧
    CelestronMount.get_mount_info true (fun _ => SendOutcome.recv "") = [] := by
  constructor
  · intro connected b p hp
    rw [get_mount_info_filterMap] at hp
    rw [List.mem_filterMap] at hp
    obtain ⟨cmd, hcmd, hf⟩ := hp
    cases hs : CelestronMount.send_command connected b cmd with
    | none => rw [hs] at hf; exact absurd hf (by simp)
    | some response =>
      rw [hs] at hf
      by_cases hr : response = ""
      · rw [hr] at hf
        simp at hf
      · simp [hr] at hf
        rw [← hf]
        exact ⟨hr, hcmd⟩
  · rfl

/-- Witness for C10 at a transport that answers `"x"` everywhere. -/
theorem claim10_witness :
    ("x" : String) ≠ "" ∧ ("MS" : String) ∈ CelestronMount.mountCommands :=
  claim10_mount_info_truthy.1 true (fun _ => SendOutcome.recv "x") ("MS", "x") (by decide)
